import Mathlib

/-!
# http_broker.cpp: protocol-sniffing TCP relay

A shallow embedding of `src/http_broker.cpp`.

* Machine `int`s are `Int`, bytes (`char`) are `Nat` byte values, socket
  handles (`SOCKET`) are `Nat`.
* The two 65535-byte stack arrays `clientBuf` / `serverBuf` are functions from
  an index to the byte stored there.  They are never initialised by the
  source, so their initial content is an arbitrary parameter.
* Every call into the operating system (`socket`, `recv`, `connect`, `select`,
  `send`, `closesocket`) appends an `Event` to a trace; the value the call
  returns is supplied by the environment.
* The four relay threads are a step function on a shared state; a schedule is
  a list of picks (which thread moves next, and what the system call it may
  issue returns), so quantifying over schedules is quantifying over all
  interleavings.
-/

namespace HttpBroker

/-! ## Globals, buffers, `recv` -/

/-- The globals of line 33: `int listenPort = 0, httpPort = 0, httpsPort = 0, sshPort = 0;`. -/
structure Globals where
  listenPort : Int
  httpPort : Int
  httpsPort : Int
  sshPort : Int
  deriving DecidableEq, Repr

/-- The initial value of the globals (all zero). -/
def Globals.zero : Globals := ⟨0, 0, 0, 0⟩

/-- A socket handle. -/
abbrev SOCKET := Nat

/-- The value `INVALID_SOCKET` of winsock2.h, `(SOCKET)(~0)`. -/
def INVALID_SOCKET : SOCKET := 2 ^ 64 - 1

/-- The value `INADDR_NONE` of winsock2.h. -/
def INADDR_NONE : Nat := 0xffffffff

/-- The value `INADDR_ANY` of winsock2.h. -/
def INADDR_ANY : Nat := 0

/-- A `char` array, as the byte stored at each index. -/
abbrev Buf := Nat → Nat

/-- The capacity `sizeof clientBuf` = `sizeof serverBuf` (line 88). -/
def BUFSIZE : Nat := 65535

/-- The bytes `recv(s, buf, sizeof buf, 0)` deposits: none when the call
returns `ret ≤ 0`, otherwise at most `ret` and at most `BUFSIZE` of the bytes
pending on the connection. -/
def recvData (ret : Int) (pending : List Nat) : List Nat :=
  if ret ≤ 0 then [] else pending.take (min ret.toNat BUFSIZE)

/-- The value `recv` returns: the error/close code `ret ≤ 0` itself, otherwise
the number of bytes deposited. -/
def recvRet (ret : Int) (pending : List Nat) : Int :=
  if ret ≤ 0 then ret else ((recvData ret pending).length : Int)

/-- The buffer after `recv` has stored `d` at its start; the rest keeps its
previous content. -/
def writeBuf (buf : Buf) (d : List Nat) : Buf :=
  fun i => if h : i < d.length then d.get ⟨i, h⟩ else buf i

/-- The first `n` bytes of a buffer, as `send(s, buf, n, 0)` reads them. -/
def bufTake (buf : Buf) (n : Nat) : List Nat :=
  (List.range n).map buf

/-! ## Classification (lines 87-101) -/

/-- The branch of the `if` chain of lines 92-101 that is taken. -/
inductive Backend where
  | https
  | ssh
  | http
  deriving DecidableEq, Repr

/-- Lines 92-101: which branch assigns `port`, or `none` for the final
`else` (`goto end`).  `clientLen` is what the `recv` of line 91 returned and
`clientBuf` the buffer after it. -/
def classify (g : Globals) (clientLen : Int) (clientBuf : Buf) : Option Backend :=
  if g.httpsPort ≠ 0 ∧ clientBuf 0 = 0x16 then some .https
  else if g.sshPort ≠ 0 ∧ clientLen ≥ 3 ∧ clientBuf 0 = 'S'.toNat ∧ clientBuf 1 = 'S'.toNat
      ∧ clientBuf 2 = 'H'.toNat then some .ssh
  else if g.httpPort ≠ 0 then some .http
  else none

/-- The value assigned to `port` in each branch (lines 93, 95, 97). -/
def Globals.portOf (g : Globals) : Backend → Int
  | .https => g.httpsPort
  | .ssh => g.sshPort
  | .http => g.httpPort

/-- The local `port` after lines 92-101, `none` when no branch assigned it. -/
def brokerPort (g : Globals) (clientLen : Int) (clientBuf : Buf) : Option Int :=
  (classify g clientLen clientBuf).map g.portOf

/-- The decision list as the specification words it, on the chunk `b` read
from the client: first match wins. -/
def specPort (g : Globals) (b : List Nat) : Option Int :=
  if g.httpsPort ≠ 0 ∧ b.head? = some 0x16 then some g.httpsPort
  else if g.sshPort ≠ 0 ∧ 3 ≤ b.length ∧ b.take 3 = [83, 83, 72] then some g.sshPort
  else if g.httpPort ≠ 0 then some g.httpPort
  else none

/-! ## System calls and the relay state -/

/-- One call into the socket library, with the value it returned. -/
inductive Event where
  | socket (ret : SOCKET)
  | recv (s : SOCKET) (ret : Int) (data : List Nat)
  | connect (s : SOCKET) (addr : Nat) (port : Nat) (ok : Bool)
  | select (s : SOCKET) (forWrite : Bool) (ret : Int)
  | send (s : SOCKET) (data : List Nat) (ret : Int)
  | closesocket (s : SOCKET)
  deriving DecidableEq, Repr

/-- The four threads of `thread t[]` (lines 125-257), in the order of the
array: `t[0]` writes to the server, `t[1]` reads from the server, `t[2]`
writes to the client, `t[3]` reads from the client. -/
inductive Worker where
  | writeUp
  | readUp
  | writeClient
  | readClient
  deriving DecidableEq, Repr

/-- Readers call `recv`, writers call `send`. -/
def Worker.isReader : Worker → Bool
  | .writeUp => false
  | .readUp => true
  | .writeClient => false
  | .readClient => true

/-- Whether the thread works on `clientLen` / `clientBuf` / `clientLock`
(`t[0]`, `t[3]`) or on `serverLen` / `serverBuf` / `serverLock` (`t[1]`, `t[2]`). -/
def Worker.onClientSlot : Worker → Bool
  | .writeUp => true
  | .readUp => false
  | .writeClient => false
  | .readClient => true

/-- The socket the thread polls and transfers on: `server` for `t[0]`, `t[1]`,
`browser` for `t[2]`, `t[3]`. -/
def Worker.sock (browser server : SOCKET) : Worker → SOCKET
  | .writeUp => server
  | .readUp => server
  | .writeClient => browser
  | .readClient => browser

/-- Whether the thread executes `error = true` when its `select` does not
return 1: lines 139 and 173 do, lines 205 and 238 are commented out. -/
def Worker.pollSetsError : Worker → Bool
  | .writeUp => true
  | .readUp => true
  | .writeClient => false
  | .readClient => false

/-- The loop-head test of a thread on its length field: `clientLen > 0`
(line 128), `serverLen == 0` (162), `serverLen > 0` (194), `clientLen == 0` (227). -/
def Worker.ready (w : Worker) (len : Int) : Bool :=
  if w.isReader then decide (len = 0) else decide (len > 0)

/-- Program points of one thread's `while (true)` body.
* `top`: about to evaluate the loop-head test on the length field;
* `chk`: the test failed, about to evaluate `else if (error)`;
* `sel`: about to call `select`;
* `lock`: about to construct the `lock_guard`;
* `xfer`: holds the lock, about to call `send` / `recv`;
* `store r`: (reader) `recv` returned `r`, about to assign it to the length field;
* `clr`: (writer) `send` succeeded, about to assign 0 to the length field;
* `err held`: about to execute `error = true; break;`, holding the lock or not;
* `unlock exit`: the `lock_guard` goes out of scope, then loop or leave;
* `done`: the thread function has returned. -/
inductive PC where
  | top
  | chk
  | sel
  | lock
  | xfer
  | store (r : Int)
  | clr
  | err (held : Bool)
  | unlock (exit : Bool)
  | done
  deriving DecidableEq, Repr

/-- The variables the four threads share (captured by reference), their
program points, and the log of the system calls made so far, oldest first,
each tagged with the thread that made it. -/
structure Relay where
  clientLen : Int
  serverLen : Int
  clientBuf : Buf
  serverBuf : Buf
  error : Bool
  clientLock : Bool
  serverLock : Bool
  pc : Worker → PC
  trace : List (Worker × Event)

/-- The length field the thread uses. -/
def Relay.len (s : Relay) (w : Worker) : Int :=
  if w.onClientSlot then s.clientLen else s.serverLen

/-- The buffer the thread uses. -/
def Relay.buf (s : Relay) (w : Worker) : Buf :=
  if w.onClientSlot then s.clientBuf else s.serverBuf

/-- Whether the mutex the thread uses is held. -/
def Relay.locked (s : Relay) (w : Worker) : Bool :=
  if w.onClientSlot then s.clientLock else s.serverLock

/-- Assign the thread's length field. -/
def Relay.setLen (s : Relay) (w : Worker) (n : Int) : Relay :=
  if w.onClientSlot then { s with clientLen := n } else { s with serverLen := n }

/-- Store received bytes at the start of the thread's buffer. -/
def Relay.fill (s : Relay) (w : Worker) (d : List Nat) : Relay :=
  if w.onClientSlot then { s with clientBuf := writeBuf s.clientBuf d }
  else { s with serverBuf := writeBuf s.serverBuf d }

/-- Acquire or release the thread's mutex. -/
def Relay.setLock (s : Relay) (w : Worker) (b : Bool) : Relay :=
  if w.onClientSlot then { s with clientLock := b } else { s with serverLock := b }

/-- Move the thread to another program point. -/
def Relay.goto (s : Relay) (w : Worker) (p : PC) : Relay :=
  { s with pc := Function.update s.pc w p }

/-- Append a system call to the log. -/
def Relay.log (s : Relay) (w : Worker) (e : Event) : Relay :=
  { s with trace := s.trace ++ [(w, e)] }

/-- One scheduling decision: the thread that takes the next step and, if that
step is a system call, what the call returns (`ret`) and, for `recv`, the
bytes pending on the connection. -/
structure Pick where
  who : Worker
  ret : Int
  pending : List Nat

/-- One step of thread `p.who` (lines 126-256); `browser` and `server` are the
two socket handles. -/
def step (browser server : SOCKET) (s : Relay) (p : Pick) : Relay :=
  let w := p.who
  match s.pc w with
  | .top => if w.ready (s.len w) then s.goto w .sel else s.goto w .chk
  | .chk => if s.error then s.goto w .done else s.goto w .top
  | .sel =>
    let s1 := s.log w (.select (w.sock browser server) (!w.isReader) p.ret)
    if p.ret = 1 then s1.goto w .lock
    else if w.pollSetsError then s1.goto w (.err false)
    else s1.goto w .done
  | .lock => if s.locked w then s else (s.setLock w true).goto w .xfer
  | .xfer =>
    if w.isReader then
      let d := recvData p.ret p.pending
      let r := recvRet p.ret p.pending
      ((s.fill w d).log w (.recv (w.sock browser server) r d)).goto w (.store r)
    else
      let s1 := s.log w (.send (w.sock browser server) (bufTake (s.buf w) (s.len w).toNat) p.ret)
      if p.ret ≤ 0 then s1.goto w (.err true) else s1.goto w .clr
  | .store r =>
    if r ≤ 0 then (s.setLen w r).goto w (.err true) else (s.setLen w r).goto w (.unlock false)
  | .clr => (s.setLen w 0).goto w (.unlock false)
  | .err held =>
    if held then ({ s with error := true }).goto w (.unlock true)
    else ({ s with error := true }).goto w .done
  | .unlock exit => (s.setLock w false).goto w (if exit then .done else .top)
  | .done => s

/-- Run a schedule. -/
def exec (browser server : SOCKET) (s : Relay) (sched : List Pick) : Relay :=
  sched.foldl (step browser server) s

/-- The shared state when the threads are created (lines 88-91, 117-118):
`clientLen` and `clientBuf` come from the initial read, `serverLen = 0`,
`error = false`, both mutexes free. -/
def relayInit (clientLen : Int) (clientBuf serverBuf : Buf) : Relay :=
  { clientLen := clientLen, serverLen := 0, clientBuf := clientBuf, serverBuf := serverBuf,
    error := false, clientLock := false, serverLock := false,
    pc := fun _ => .top, trace := [] }

/-- All four thread functions have returned, so the `join` loop of line 259 ends. -/
def allDone (s : Relay) : Bool :=
  decide (s.pc .writeUp = .done) && decide (s.pc .readUp = .done)
    && decide (s.pc .writeClient = .done) && decide (s.pc .readClient = .done)

/-! ## `broker` (lines 47-272) -/

/-- What the environment answers during one call of `broker`. -/
structure Env where
  /-- The address `gethostbyname` resolves to, `none` for a null result. -/
  host : Option Nat
  /-- The result of `inet_addr(hostname)`. -/
  inetAddr : Nat
  /-- The indeterminate value of `server` when `goto end` (line 64) skips its assignment. -/
  serverUninit : SOCKET
  /-- The result of `socket(AF_INET, SOCK_STREAM, IPPROTO_TCP)`. -/
  sock : SOCKET
  /-- The indeterminate initial content of `clientBuf`. -/
  clientStack : Buf
  /-- The indeterminate initial content of `serverBuf`. -/
  serverStack : Buf
  /-- The result code of the initial `recv` (line 91). -/
  firstRet : Int
  /-- The bytes pending on the client connection at the initial `recv`. -/
  firstPending : List Nat
  /-- Whether `connect` succeeds (`!= SOCKET_ERROR`). -/
  connectOk : Bool
  /-- The interleaving of the four relay threads. -/
  sched : List Pick

/-- How far `broker` got. -/
inductive Status where
  | returned
  | crashed
  | running
  deriving DecidableEq, Repr

/-- The observable behaviour of one call of `broker`. -/
structure Run where
  status : Status
  trace : List Event
  started : List Worker
  deriving DecidableEq, Repr

/-- The hard-coded upstream host of line 56. -/
def hostname : String := "localhost"

/-- The 16-bit value passed through `htons` into `sin.sin_port` (line 113). -/
def sinPort (port : Int) : Nat := (port % 65536).toNat

/-- The label `end:` (lines 266-271). -/
def teardown (browser server : SOCKET) : List Event :=
  .closesocket browser :: (if server ≠ INVALID_SOCKET then [.closesocket server] else [])

/-- Lines 73-272 of `broker`, entered with the resolved address. -/
def brokerFrom (g : Globals) (browser : SOCKET) (env : Env) (addr : Nat) : Run :=
  let server := env.sock
  if server = INVALID_SOCKET then
    ⟨.returned, .socket server :: teardown browser server, []⟩
  else
    let clientLen := recvRet env.firstRet env.firstPending
    let data := recvData env.firstRet env.firstPending
    let clientBuf := writeBuf env.clientStack data
    let pre := [Event.socket server, .recv browser clientLen data]
    match classify g clientLen clientBuf with
    | none => ⟨.returned, pre ++ teardown browser server, []⟩
    | some b =>
      let conn := Event.connect server addr (sinPort (g.portOf b)) env.connectOk
      if env.connectOk then
        let fin := exec browser server (relayInit clientLen clientBuf env.serverStack) env.sched
        let tr := pre ++ [conn] ++ fin.trace.map Prod.snd
        let ws := [Worker.writeUp, .readUp, .writeClient, .readClient]
        if allDone fin then ⟨.returned, tr ++ teardown browser server, ws⟩
        else ⟨.running, tr, ws⟩
      else ⟨.returned, pre ++ [conn] ++ teardown browser server, []⟩

/-- The function `broker(SOCKET browser)`. -/
def broker (g : Globals) (browser : SOCKET) (env : Env) : Run :=
  if hostname.front.isAlpha then
    match env.host with
    | none => ⟨.crashed, [], []⟩
    | some addr => brokerFrom g browser env addr
  else
    if env.inetAddr = INADDR_NONE ∨ env.inetAddr = INADDR_ANY then
      ⟨.returned, teardown browser env.serverUninit, []⟩
    else brokerFrom g browser env env.inetAddr

/-! ## Command line (lines 274-357) -/

/-- The `has_arg` field of `struct option` (getopt.h). -/
inductive HasArg where
  | no_argument
  | required_argument
  | optional_argument
  deriving DecidableEq, Repr

/-- One row of a `struct option` table; the `flag` field is 0 in every row of
the source, so `getopt_long` returns `val`. -/
structure LongOption where
  name : String
  has_arg : HasArg
  val : Char
  deriving DecidableEq, Repr

/-- The table `long_options` of lines 289-297. -/
def long_options : List LongOption :=
  [ ⟨"help", .optional_argument, 'h'⟩,
    ⟨"port", .required_argument, 'l'⟩,
    ⟨"http", .required_argument, 'p'⟩,
    ⟨"https", .required_argument, 's'⟩,
    ⟨"ssh", .required_argument, 't'⟩,
    ⟨"verbose", .optional_argument, 'v'⟩ ]

/-- The short-option string of line 305. -/
def optstring : String := "hl:p:s:t:v"

/-- The long names the usage text of `help()` advertises (lines 276-280). -/
def helpNames : List String := ["help", "listen", "http", "https", "ssh"]

/-- One return of `getopt_long`: the option character (`'?'` for an
unrecognised option or a missing argument) and `optarg`. -/
structure Opt where
  c : Char
  optarg : Option String
  deriving DecidableEq, Repr

/-- The row `getopt_long` selects for the long name `name`: an exact match if
there is one, otherwise the unique row `name` abbreviates. -/
def findLong (table : List LongOption) (name : String) : Option LongOption :=
  match table.find? (fun o => o.name == name) with
  | some o => some o
  | none =>
    match table.filter (fun o => name.toList.isPrefixOf o.name.toList) with
    | [o] => some o
    | _ => none

/-- How `getopt_long` treats a short-option character: `none` if it is not in
the option string, otherwise whether it takes an argument. -/
def findShort : List Char → Char → Option Bool
  | [], _ => none
  | [x], c => if x = c ∧ c ≠ ':' then some false else none
  | x :: y :: rest, c =>
    if x = c ∧ c ≠ ':' then some (decide (y = ':')) else findShort (y :: rest) c

/-- What `getopt_long` makes of one command-line element. -/
structure Parsed where
  /-- The values returned while scanning this element. -/
  opts : List Opt
  /-- Whether the following element was consumed as an option argument. -/
  usedNext : Bool
  /-- Whether the element is `--`, which ends option scanning. -/
  stop : Bool
  deriving DecidableEq, Repr

/-- Scanning of a cluster of short options `-abc`; `next` is the following
command-line element. -/
def parseShorts (short : List Char) (next : Option String) : List Char → Parsed
  | [] => ⟨[], false, false⟩
  | c :: cs =>
    match findShort short c with
    | none =>
      let r := parseShorts short next cs
      ⟨⟨'?', none⟩ :: r.opts, r.usedNext, false⟩
    | some false =>
      let r := parseShorts short next cs
      ⟨⟨c, none⟩ :: r.opts, r.usedNext, false⟩
    | some true =>
      if cs ≠ [] then ⟨[⟨c, some (String.mk cs)⟩], false, false⟩
      else
        match next with
        | some v => ⟨[⟨c, some v⟩], true, false⟩
        | none => ⟨[⟨'?', none⟩], false, false⟩

/-- Scanning of a long option `--name` or `--name=value`. -/
def parseLong (table : List LongOption) (next : Option String) (body : List Char) : Parsed :=
  let name := String.mk (body.takeWhile (fun c => c ≠ '='))
  let value : Option String :=
    if body.contains '=' then some (String.mk ((body.dropWhile (fun c => c ≠ '=')).drop 1))
    else none
  match findLong table name with
  | none => ⟨[⟨'?', none⟩], false, false⟩
  | some o =>
    match o.has_arg with
    | .no_argument =>
      if value.isSome then ⟨[⟨'?', none⟩], false, false⟩ else ⟨[⟨o.val, none⟩], false, false⟩
    | .optional_argument => ⟨[⟨o.val, value⟩], false, false⟩
    | .required_argument =>
      match value, next with
      | some v, _ => ⟨[⟨o.val, some v⟩], false, false⟩
      | none, some v => ⟨[⟨o.val, some v⟩], true, false⟩
      | none, none => ⟨[⟨'?', none⟩], false, false⟩

/-- Scanning of one command-line element: `--` stops, `--x` is a long option,
`-x` a cluster of short options, anything else is a non-option and is skipped. -/
def parseArg (short : List Char) (table : List LongOption) (next : Option String)
    (arg : String) : Parsed :=
  match arg.toList with
  | ['-', '-'] => ⟨[], false, true⟩
  | '-' :: '-' :: body => parseLong table next body
  | ['-'] => ⟨[], false, false⟩
  | '-' :: cs => parseShorts short next cs
  | _ => ⟨[], false, false⟩

/-- The values successive calls of the C library's `getopt_long` return until
it returns -1, as its manual documents them (non-options are permuted to the
end, which for a caller that never reads them amounts to skipping them).
The Boolean says that the head element was consumed as the argument of the
option before it. -/
def getoptAll (short : List Char) (table : List LongOption) : Bool → List String → List Opt
  | _, [] => []
  | true, _ :: rest => getoptAll short table false rest
  | false, a :: rest =>
    let r := parseArg short table rest.head? a
    if r.stop then r.opts else r.opts ++ getoptAll short table r.usedNext rest

/-- The value of a decimal digit string, as `atoi` accumulates it. -/
def digitsValue (ds : List Char) : Int :=
  ds.foldl (fun n c => 10 * n + ((c.toNat - '0'.toNat : Nat) : Int)) 0

/-- The C library's `atoi`: leading white space, an optional sign, then the
longest run of decimal digits (values outside `int` are not modelled). -/
def atoi (s : String) : Int :=
  match s.toList.dropWhile Char.isWhitespace with
  | '-' :: ds => - digitsValue (ds.takeWhile Char.isDigit)
  | '+' :: ds => digitsValue (ds.takeWhile Char.isDigit)
  | ds => digitsValue (ds.takeWhile Char.isDigit)

/-- How `handleCommandLine` ends: through `help()`, which prints the usage and
calls `exit(0)`, or by returning with the globals set. -/
inductive Parse where
  | help
  | proceed (g : Globals)
  deriving DecidableEq, Repr

/-- The `switch` of lines 311-345 over the successive results of
`getopt_long` (the build without `DEBUG`: `'v'` falls to `default`). -/
def handleOpts : Globals → List Opt → Parse
  | g, [] => if g.listenPort = 0 then .help else .proceed g
  | g, o :: rest =>
    if o.c = 'h' then .help
    else if o.c = 'l' then handleOpts { g with listenPort := atoi (o.optarg.getD "") } rest
    else if o.c = 'p' then handleOpts { g with httpPort := atoi (o.optarg.getD "") } rest
    else if o.c = 's' then handleOpts { g with httpsPort := atoi (o.optarg.getD "") } rest
    else if o.c = 't' then handleOpts { g with sshPort := atoi (o.optarg.getD "") } rest
    else handleOpts g rest

/-- The function `handleCommandLine(argc, argv)`, started from the zero
globals; `argv[0]` is the program name. -/
def handleCommandLine (argv : List String) : Parse :=
  handleOpts Globals.zero (getoptAll optstring.toList long_options false argv.tail)

/-! ## Observations on traces, and the invariants of the relay -/

/-- The number of `closesocket(x)` calls in a trace. -/
def closes (x : SOCKET) (t : List Event) : Nat := t.count (.closesocket x)

/-- The system calls of a relay state, without the thread tags. -/
def Relay.calls (s : Relay) : List Event := s.trace.map Prod.snd

/-- The thread is outside the body of its `if` (it holds no chunk in flight). -/
def PC.outside : PC → Bool
  | .top => true
  | .chk => true
  | .done => true
  | _ => false

/-- The thread has not yet passed a `send`/`recv` call in this iteration. -/
def PC.beforeCall : PC → Bool
  | .top => true
  | .chk => true
  | .sel => true
  | .lock => true
  | .xfer => true
  | .err false => true
  | .done => true
  | _ => false

/-- No `send` on socket `x` occurs in the trace. -/
def noSendOn (x : SOCKET) (t : List Event) : Prop := ∀ d r, Event.send x d r ∉ t

/-- Every `recv` on `browser` is preceded by a `send` on `server`. -/
def recvGuarded (browser server : SOCKET) (t : List Event) : Prop :=
  ∀ pre r d, pre ++ [Event.recv browser r d] <+: t → ¬ noSendOn server pre

/-- The first `send` on `server` carries `chunk`. -/
def firstSendIs (server : SOCKET) (chunk : List Nat) (t : List Event) : Prop :=
  ∀ pre d r, pre ++ [Event.send server d r] <+: t → noSendOn server pre → d = chunk

/-- Invariant behind the forwarding of the sniffed chunk. -/
structure SniffInv (browser server : SOCKET) (n : Int) (buf0 : Buf) (s : Relay) : Prop where
  guarded : recvGuarded browser server s.calls
  first : firstSendIs server (bufTake buf0 n.toNat) s.calls
  pending : noSendOn server s.calls →
    s.clientLen = n ∧ s.clientBuf = buf0 ∧ (s.pc .readClient).outside = true
      ∧ (s.pc .writeUp).beforeCall = true

/-- The bytes a `recv` call deposited. -/
def Event.recvBytes : Event → List Nat
  | .recv _ _ d => d
  | _ => []

/-- The bytes a `send` call was asked to transmit. -/
def Event.sendBytes : Event → List Nat
  | .send _ d _ => d
  | _ => []

/-- The bytes a `send` call reports as transmitted: the first `ret` of them. -/
def Event.sentBytes : Event → List Nat
  | .send _ d r => d.take r.toNat
  | _ => []

/-- A `send` that either fails (`ret ≤ 0`) or transmits the full requested length. -/
def Event.fullSend : Event → Bool
  | .send _ d r => decide (r ≤ 0 ∨ r = (d.length : Int))
  | _ => true

/-- Concatenation, in order, of `f e` over the calls `e` made by thread `w`. -/
def stream (f : Event → List Nat) (w : Worker) (t : List (Worker × Event)) : List Nat :=
  ((t.filter (fun x => decide (x.1 = w))).map (fun x => f x.2)).flatten

/-- The bytes thread `w` has received so far. -/
def received (w : Worker) (t : List (Worker × Event)) : List Nat := stream Event.recvBytes w t

/-- The bytes thread `w` has handed to `send` so far. -/
def issued (w : Worker) (t : List (Worker × Event)) : List Nat := stream Event.sendBytes w t

/-- The bytes the `send` calls of thread `w` report as transmitted so far. -/
def delivered (w : Worker) (t : List (Worker × Event)) : List Nat := stream Event.sentBytes w t

/-- Every `send` in the log transmitted its full length or failed. -/
def fullSends (t : List (Worker × Event)) : Bool := t.all (fun x => x.2.fullSend)

/-- Writer program points at which the slot is known to be full. -/
def PC.holding : PC → Bool
  | .sel => true
  | .lock => true
  | .xfer => true
  | .clr => true
  | .err true => true
  | .unlock true => true
  | _ => false

/-- Writer program points between its `send` and the end of the iteration. -/
def PC.sentPending : PC → Bool
  | .clr => true
  | .err true => true
  | .unlock true => true
  | _ => false

/-- Reader program points inside the `if` body up to the assignment of the length. -/
def PC.reading : PC → Bool
  | .sel => true
  | .lock => true
  | .xfer => true
  | .store _ => true
  | _ => false

/-- Program points a writer reaches only after a failed `send`, or its exit. -/
def PC.failed : PC → Bool
  | .err true => true
  | .unlock true => true
  | .done => true
  | _ => false

/-- The value a reader is about to assign to the length field (0 elsewhere). -/
def PC.stored : PC → Int
  | .store r => r
  | _ => 0

/-- Not a reader-only program point. -/
def PC.writerPoint : PC → Bool
  | .store _ => false
  | _ => true

/-- Not a writer-only program point. -/
def PC.readerPoint : PC → Bool
  | .clr => false
  | _ => true

/-- The chunk that has been received into the slot and not yet handed to `send`. -/
def Relay.pend (s : Relay) (rd : Worker) : List Nat :=
  bufTake (s.buf rd) (if 0 < s.len rd then s.len rd else (s.pc rd).stored).toNat

/-- Invariant of one direction: `rd` is its reader, `wr` its writer, `init` the
bytes that were in the slot when the threads started.
* a writer is never at a reader-only program point and conversely;
* while the reader is inside its `if` body the length is 0;
* while the writer holds a chunk the length is positive;
* the bytes received are the bytes handed to `send` followed by the pending chunk;
* if every `send` is full, the bytes transmitted are those handed to `send`,
  except that a last failed `send` transmitted nothing. -/
def ChanInv (rd wr : Worker) (init : List Nat) (s : Relay) : Prop :=
  (s.pc wr).writerPoint = true
  ∧ (s.pc rd).readerPoint = true
  ∧ ((s.pc rd).reading = true → s.len rd = 0)
  ∧ ((s.pc wr).holding = true → 0 < s.len rd)
  ∧ (if (s.pc wr).sentPending = true then init ++ received rd s.trace = issued wr s.trace
    else (init ++ received rd s.trace = issued wr s.trace ++ s.pend rd
      ∨ (s.pc wr = .done ∧ 0 < s.len rd ∧ init ++ received rd s.trace = issued wr s.trace)))
  ∧ (fullSends s.trace = true → (delivered wr s.trace = issued wr s.trace
      ∨ ((s.pc wr).failed = true ∧ delivered wr s.trace <+: issued wr s.trace)))

/-- The log entries made by thread `w`. -/
def callsBy (w : Worker) (t : List (Worker × Event)) : List (Worker × Event) :=
  t.filter (fun x => decide (x.1 = w))

/-- After a failed poll of a thread that sets the flag: the thread is either
still about to execute `error = true` or has exited with the flag set. -/
def flagPending (w : Worker) (s : Relay) : Prop :=
  s.pc w = .err false ∨ (s.pc w = .done ∧ s.error = true)

/-- A thread that found its slot not ready while the flag is set: it is at the
test of `error` or has exited, the flag is still set, and it has made no call. -/
def leaving (w : Worker) (log0 : List (Worker × Event)) (s : Relay) : Prop :=
  s.error = true ∧ (s.pc w = .chk ∨ s.pc w = .done) ∧ callsBy w s.trace = log0

/-! ## Concrete inputs -/

/-- A buffer holding zeros. -/
def zeroBuf : Buf := fun _ => 0

/-- Only an HTTP backend: `-l 80 -p 8080`. -/
def httpOnly : Globals := ⟨80, 8080, 0, 0⟩

/-- All three backends: `-l 80 -p 8080 -s 8443 -t 22`. -/
def allBackends : Globals := ⟨80, 8080, 8443, 22⟩

/-- No HTTP backend: `-l 80 -s 8443 -t 22`. -/
def noHttp : Globals := ⟨80, 0, 8443, 22⟩

/-- The client connects and closes without sending: the initial `recv`
returns 0.  The backend accepts the connection; in the relay the client
reader sees the close, and the server reader's poll times out. -/
def closedClient : Env :=
  { host := some 2130706433, inetAddr := INADDR_NONE, serverUninit := INVALID_SOCKET, sock := 7,
    clientStack := zeroBuf, serverStack := zeroBuf, firstRet := 0, firstPending := [],
    connectOk := true,
    sched := [⟨.readClient, 0, []⟩, ⟨.readClient, 1, []⟩, ⟨.readClient, 0, []⟩,
      ⟨.readClient, 0, []⟩, ⟨.readClient, 0, []⟩, ⟨.readClient, 0, []⟩, ⟨.readClient, 0, []⟩,
      ⟨.writeUp, 0, []⟩, ⟨.writeUp, 0, []⟩,
      ⟨.readUp, 0, []⟩, ⟨.readUp, 0, []⟩, ⟨.readUp, 0, []⟩,
      ⟨.writeClient, 0, []⟩, ⟨.writeClient, 0, []⟩] }

/-- The client sends `GET`; no relay is reached when no backend is selected. -/
def getRequest : Env :=
  { host := some 2130706433, inetAddr := INADDR_NONE, serverUninit := INVALID_SOCKET, sock := 7,
    clientStack := zeroBuf, serverStack := zeroBuf, firstRet := 3, firstPending := [71, 69, 84],
    connectOk := true, sched := [] }

/-- The relay state after the sniffed chunk `GET` and a successful `connect`. -/
def getRelay : Relay := relayInit 3 (writeBuf zeroBuf [71, 69, 84]) zeroBuf

/-- The server writer forwards the sniffed chunk (six steps), then the client
reader polls, locks, receives `!`, and stores its length. -/
def forwardSched : List Pick :=
  [⟨.writeUp, 0, []⟩, ⟨.writeUp, 1, []⟩, ⟨.writeUp, 0, []⟩, ⟨.writeUp, 3, []⟩, ⟨.writeUp, 0, []⟩,
    ⟨.writeUp, 0, []⟩, ⟨.readClient, 0, []⟩, ⟨.readClient, 1, []⟩, ⟨.readClient, 0, []⟩,
    ⟨.readClient, 1, [33]⟩, ⟨.readClient, 0, []⟩]

/-- The server writer forwards the sniffed chunk, then the client reader's
poll times out (`select` returns 0). -/
def clientTimeoutSched : List Pick :=
  [⟨.writeUp, 0, []⟩, ⟨.writeUp, 1, []⟩, ⟨.writeUp, 0, []⟩, ⟨.writeUp, 3, []⟩, ⟨.writeUp, 0, []⟩,
    ⟨.writeUp, 0, []⟩, ⟨.readClient, 0, []⟩, ⟨.readClient, 0, []⟩]

/-- The server reader's poll times out and it sets the flag (three steps). -/
def serverTimeoutSched : List Pick :=
  [⟨.readUp, 0, []⟩, ⟨.readUp, 0, []⟩, ⟨.readUp, 0, []⟩]

/-- After the flag is set, the server writer still runs one full iteration on
its pending chunk: loop head, poll, lock, `send`. -/
def writerAfterFlagSched : List Pick :=
  [⟨.writeUp, 0, []⟩, ⟨.writeUp, 1, []⟩, ⟨.writeUp, 0, []⟩, ⟨.writeUp, 3, []⟩]

/-! ## Classification -/

theorem bufTake_writeBuf (buf : Buf) (d : List Nat) :
    bufTake (writeBuf buf d) d.length = d := by
  apply List.ext_getElem
  · simp [bufTake]
  · intro i h1 h2
    simp [bufTake, writeBuf, h2]

/-- C1. For every configuration and every non-empty first chunk `b` that the
initial `recv` stored at the start of `clientBuf` (over arbitrary previous
content), the port `broker` assigns equals the decision list of the
specification, first match wins.  In particular a chunk starting with `0x16`
goes to the HTTPS port whenever one is configured, and the chunk `SSH` with
no SSH port and an HTTP port goes to the HTTP port. -/
theorem classify_matches_decision_list (g : Globals) (stack : Buf) (b : List Nat) (hb : b ≠ []) :
    brokerPort g b.length (writeBuf stack b) = specPort g b
    ∧ (g.httpsPort ≠ 0 → b.head? = some 0x16 →
        brokerPort g b.length (writeBuf stack b) = some g.httpsPort)
    ∧ (g.sshPort = 0 → g.httpPort ≠ 0 → b = [83, 83, 72] →
        brokerPort g b.length (writeBuf stack b) = some g.httpPort) := by
  have key : brokerPort g b.length (writeBuf stack b) = specPort g b := by
    match b, hb with
    | [x], _ =>
      simp [brokerPort, classify, specPort, writeBuf, Globals.portOf]
      split_ifs <;> simp_all [Globals.portOf]
    | [x, y], _ =>
      simp [brokerPort, classify, specPort, writeBuf]
      split_ifs <;> simp_all [Globals.portOf]
    | x :: y :: z :: r, _ =>
      have h3 : ¬ ((r.length : Int) + 1 + 1 + 1 < 3) := by omega
      simp [brokerPort, classify, specPort, writeBuf, h3]
      split_ifs <;> simp_all [Globals.portOf]
  refine ⟨key, ?_, ?_⟩
  · intro h1 h2
    rw [key]; simp [specPort, h1, h2]
  · intro h1 h2 h3
    rw [key]; subst h3; simp [specPort, h1, h2]

/-! ## Teardown -/

theorem exec_cons (browser server : SOCKET) (s : Relay) (p : Pick) (ps : List Pick) :
    exec browser server s (p :: ps) = exec browser server (step browser server s p) ps := rfl

theorem step_closes (browser server x : SOCKET) (s : Relay) (p : Pick) :
    closes x ((step browser server s p).trace.map Prod.snd) = closes x (s.trace.map Prod.snd) := by
  unfold step
  simp only []
  split <;> (try split_ifs) <;>
    simp [closes, Relay.goto, Relay.log, Relay.setLen, Relay.fill, Relay.setLock, List.count_cons,
      apply_ite Relay.trace]

theorem exec_closes (browser server x : SOCKET) (s : Relay) (ps : List Pick) :
    closes x ((exec browser server s ps).trace.map Prod.snd) = closes x (s.trace.map Prod.snd) := by
  induction ps generalizing s with
  | nil => rfl
  | cons p ps ih => rw [exec_cons, ih, step_closes]

theorem hostname_alpha : hostname.front.isAlpha = true := by decide

theorem closes_append (x : SOCKET) (t u : List Event) :
    closes x (t ++ u) = closes x t + closes x u := by
  simp [closes, List.count_append]

theorem closes_teardown (x browser server : SOCKET) :
    closes x (teardown browser server)
      = (if browser = x then 1 else 0) + (if server = x ∧ server ≠ INVALID_SOCKET then 1 else 0) := by
  simp only [teardown, closes]
  by_cases h3 : server = INVALID_SOCKET
  · simp [h3, List.count_cons]
  · by_cases h2 : server = x
    · subst h2; simp [h3, List.count_cons, Nat.add_comm]
    · simp [h3, h2, List.count_cons]

/-- C8. Whenever `broker` returns, and the handle `socket()` gave is not the
client's, `closesocket` has been called exactly once on the client socket,
exactly once on the server socket if that is not `INVALID_SOCKET` and not at
all otherwise, and on no other handle. -/
theorem broker_closes_each_socket_once (g : Globals) (browser : SOCKET) (env : Env)
    (hret : (broker g browser env).status = .returned) (hne : env.sock ≠ browser) :
    closes browser (broker g browser env).trace = 1
    ∧ closes env.sock (broker g browser env).trace = (if env.sock ≠ INVALID_SOCKET then 1 else 0)
    ∧ ∀ x, x ≠ browser → x ≠ env.sock → closes x (broker g browser env).trace = 0 := by
  have key : ∀ x, closes x (broker g browser env).trace
      = (if browser = x then 1 else 0)
        + (if env.sock = x ∧ env.sock ≠ INVALID_SOCKET then 1 else 0) := by
    intro x
    revert hret
    simp only [broker, hostname_alpha, if_true]
    cases env.host with
    | none => simp
    | some addr =>
      simp only [brokerFrom]
      by_cases h1 : env.sock = INVALID_SOCKET
      · intro _
        simp only [h1, if_true]
        have := closes_teardown x browser INVALID_SOCKET
        simp only [closes] at this ⊢
        simp [List.count_cons, this]
      · simp only [h1, if_false]
        cases hc : classify g (recvRet env.firstRet env.firstPending)
            (writeBuf env.clientStack (recvData env.firstRet env.firstPending)) with
        | none =>
          intro _
          simp only []
          rw [closes_append, closes_teardown]; simp [closes, List.count_cons, h1]
        | some b =>
          simp only []
          by_cases h2 : env.connectOk = true
          · simp only [h2, if_true]
            by_cases h3 : allDone (exec browser env.sock
                (relayInit (recvRet env.firstRet env.firstPending)
                  (writeBuf env.clientStack (recvData env.firstRet env.firstPending))
                  env.serverStack) env.sched) = true
            · intro _
              simp only [h3, if_true]
              rw [closes_append, closes_append, exec_closes, closes_teardown]
              simp [closes, List.count_cons, relayInit, h1]
            · simp [h3]
          · simp only [h2]
            intro _
            simp only [Bool.false_eq_true, if_false]
            rw [closes_append, closes_teardown]; simp [closes, List.count_cons, h1]
  refine ⟨?_, ?_, ?_⟩
  · rw [key]; simp [hne]
  · rw [key]; simp [Ne.symm hne]
  · intro x hx1 hx2; rw [key]; simp [Ne.symm hx1, Ne.symm hx2]

/-! ## The sniffed chunk is forwarded first -/

theorem noSendOn_snoc (x : SOCKET) (t : List Event) (e : Event) :
    noSendOn x (t ++ [e]) ↔ noSendOn x t ∧ ∀ d r, e ≠ Event.send x d r := by
  simp only [noSendOn, List.mem_append, List.mem_singleton, not_or]
  constructor
  · intro h
    exact ⟨fun d r => (h d r).1, fun d r heq => (h d r).2 heq.symm⟩
  · intro h d r
    exact ⟨h.1 d r, fun heq => h.2 d r heq.symm⟩

theorem noSendOn_mono (x : SOCKET) (t u : List Event) (h : t <+: u) (hu : noSendOn x u) :
    noSendOn x t := fun d r hm => hu d r (h.subset hm)

theorem recvGuarded_snoc (browser server : SOCKET) (t : List Event) (e : Event)
    (ht : recvGuarded browser server t)
    (he : (∀ r d, e ≠ Event.recv browser r d) ∨ ¬ noSendOn server t) :
    recvGuarded browser server (t ++ [e]) := by
  intro pre r d hp
  rcases List.prefix_concat_iff.mp hp with h | h
  · have h2 := List.append_inj' h rfl
    rcases he with he | he
    · exact absurd (List.singleton_inj.mp h2.2).symm (he r d)
    · rw [h2.1]; exact he
  · exact ht pre r d h

theorem firstSendIs_snoc (server : SOCKET) (chunk : List Nat) (t : List Event) (e : Event)
    (ht : firstSendIs server chunk t)
    (he : ∀ d r, e = Event.send server d r → noSendOn server t → d = chunk) :
    firstSendIs server chunk (t ++ [e]) := by
  intro pre d r hp hn
  rcases List.prefix_concat_iff.mp hp with h | h
  · have h2 := List.append_inj' h rfl
    rw [h2.1] at hn
    exact he d r (List.singleton_inj.mp h2.2).symm hn
  · exact ht pre d r h hn

theorem step_calls (browser server : SOCKET) (s : Relay) (p : Pick) :
    (step browser server s p).calls = s.calls
    ∨ (∃ fw, (step browser server s p).calls
          = s.calls ++ [Event.select (p.who.sock browser server) fw p.ret])
    ∨ (p.who.isReader = true ∧ s.pc p.who = .xfer ∧ ∃ r d, (step browser server s p).calls
          = s.calls ++ [Event.recv (p.who.sock browser server) r d])
    ∨ (p.who.isReader = false ∧ s.pc p.who = .xfer ∧ (step browser server s p).calls
          = s.calls ++ [Event.send (p.who.sock browser server)
              (bufTake (s.buf p.who) (s.len p.who).toNat) p.ret]) := by
  obtain ⟨w, ret, pending⟩ := p
  unfold step
  simp only []
  split <;> (try split_ifs) <;>
    simp_all [Relay.calls, Relay.goto, Relay.log, Relay.setLen, Relay.fill, Relay.setLock,
      apply_ite Relay.trace]

theorem SniffInv_step (browser server : SOCKET) (n : Int) (buf0 : Buf) (hn : 0 < n)
    (hne : server ≠ browser) (s : Relay) (p : Pick) (h : SniffInv browser server n buf0 s) :
    SniffInv browser server n buf0 (step browser server s p) := by
  obtain ⟨hg, hf, hp⟩ := h
  refine ⟨?_, ?_, ?_⟩
  · rcases step_calls browser server s p with h | ⟨fw, h⟩ | ⟨h1, h2, r, d, h⟩ | ⟨h1, h2, h⟩
    · rw [h]; exact hg
    · rw [h]; exact recvGuarded_snoc _ _ _ _ hg (Or.inl (by simp))
    · rw [h]
      refine recvGuarded_snoc _ _ _ _ hg ?_
      by_cases hs : p.who.sock browser server = browser
      · right
        intro hno
        have := hp hno
        cases hw : p.who <;> simp_all [Worker.sock, Worker.isReader, PC.outside]
      · left
        intro r' d' he
        simp only [Event.recv.injEq] at he
        exact hs he.1
    · rw [h]; exact recvGuarded_snoc _ _ _ _ hg (Or.inl (by simp))
  · rcases step_calls browser server s p with h | ⟨fw, h⟩ | ⟨h1, h2, r, d, h⟩ | ⟨h1, h2, h⟩
    · rw [h]; exact hf
    · rw [h]; exact firstSendIs_snoc _ _ _ _ hf (by simp)
    · rw [h]; exact firstSendIs_snoc _ _ _ _ hf (by simp)
    · rw [h]
      refine firstSendIs_snoc _ _ _ _ hf ?_
      intro d r he hno
      have := hp hno
      simp only [Event.send.injEq] at he
      cases hw : p.who <;> simp_all [Worker.sock, Worker.isReader, Relay.buf, Relay.len,
        Worker.onClientSlot]
  · intro hno
    have hpre : s.calls <+: (step browser server s p).calls := by
      rcases step_calls browser server s p with h | ⟨fw, h⟩ | ⟨h1, h2, r, d, h⟩ | ⟨h1, h2, h⟩ <;>
        rw [h] <;> simp
    obtain ⟨h1, h2, h3, h4⟩ := hp (noSendOn_mono _ _ _ hpre hno)
    revert hno
    obtain ⟨w, ret, pending⟩ := p
    unfold step
    simp only []
    cases w <;> split <;> (try split_ifs) <;>
      simp_all [Relay.calls, Relay.goto, Relay.log, Relay.setLen, Relay.fill, Relay.setLock,
        Worker.isReader, Worker.sock, Worker.onClientSlot, Worker.ready, Worker.pollSetsError,
        PC.outside, PC.beforeCall, noSendOn_snoc, Relay.len, Relay.buf, Relay.locked]

theorem SniffInv_init (browser server : SOCKET) (n : Int) (buf0 serverBuf : Buf) :
    SniffInv browser server n buf0 (relayInit n buf0 serverBuf) := by
  refine ⟨?_, ?_, ?_⟩
  · intro pre r d hp
    simp [relayInit, Relay.calls] at hp
  · intro pre r d hp
    simp [relayInit, Relay.calls] at hp
  · intro _
    simp [relayInit, PC.outside, PC.beforeCall]

theorem SniffInv_exec (browser server : SOCKET) (n : Int) (buf0 : Buf) (hn : 0 < n)
    (hne : server ≠ browser) (sched : List Pick) (s : Relay)
    (h : SniffInv browser server n buf0 s) :
    SniffInv browser server n buf0 (exec browser server s sched) := by
  induction sched generalizing s with
  | nil => exact h
  | cons p ps ih => exact ih _ (SniffInv_step browser server n buf0 hn hne s p h)

/-- C4. In every interleaving of the relay started with `clientLen = n > 0`,
every `recv` on the client socket is preceded by a `send` on the server
socket, and the first `send` on the server socket carries exactly the first
`n` bytes of `clientBuf`. -/
theorem sniffed_chunk_forwarded_first (browser server : SOCKET) (clientLen : Int)
    (clientBuf serverBuf : Buf) (sched : List Pick) (hn : 0 < clientLen) (hne : server ≠ browser) :
    (∀ pre r d post,
        (exec browser server (relayInit clientLen clientBuf serverBuf) sched).calls
          = pre ++ Event.recv browser r d :: post →
        ∃ d0 r0, Event.send server d0 r0 ∈ pre)
    ∧ (∀ pre d r post,
        (exec browser server (relayInit clientLen clientBuf serverBuf) sched).calls
          = pre ++ Event.send server d r :: post →
        (∀ d0 r0, Event.send server d0 r0 ∉ pre) →
        d = bufTake clientBuf clientLen.toNat) := by
  have inv := SniffInv_exec browser server clientLen clientBuf hn hne sched _
    (SniffInv_init browser server clientLen clientBuf serverBuf)
  constructor
  · intro pre r d post heq
    have := inv.guarded pre r d ⟨post, by rw [heq]; simp⟩
    simpa [noSendOn] using this
  · intro pre d r post heq hno
    exact inv.first pre d r ⟨post, by rw [heq]; simp⟩ hno

/-! ## What a step of one thread leaves untouched -/

theorem step_pc_other (browser server : SOCKET) (s : Relay) (p : Pick) (w : Worker)
    (h : p.who ≠ w) : (step browser server s p).pc w = s.pc w := by
  obtain ⟨v, ret, pending⟩ := p
  have hv : w ≠ v := fun e => h e.symm
  unfold step
  simp only []
  split <;> (try split_ifs) <;>
    simp [Relay.goto, Relay.log, Relay.setLen, Relay.fill, Relay.setLock, apply_ite Relay.pc,
      Function.update_noteq hv]

theorem step_error_mono (browser server : SOCKET) (s : Relay) (p : Pick)
    (h : s.error = true) : (step browser server s p).error = true := by
  obtain ⟨v, ret, pending⟩ := p
  unfold step
  simp only []
  split <;> (try split_ifs) <;>
    simp [Relay.goto, Relay.log, Relay.setLen, Relay.fill, Relay.setLock, apply_ite Relay.error, h]

theorem step_callsBy_other (browser server : SOCKET) (s : Relay) (p : Pick) (w : Worker)
    (h : p.who ≠ w) : callsBy w (step browser server s p).trace = callsBy w s.trace := by
  obtain ⟨v, ret, pending⟩ := p
  have hv : v ≠ w := h
  unfold step
  simp only []
  split <;> (try split_ifs) <;>
    simp [Relay.goto, Relay.log, Relay.setLen, Relay.fill, Relay.setLock, apply_ite Relay.trace,
      callsBy, List.filter_append, List.filter_cons, hv]

/-! ## Order of the bytes within one direction -/

theorem stream_snoc (f : Event → List Nat) (w v : Worker) (e : Event)
    (t : List (Worker × Event)) :
    stream f w (t ++ [(v, e)]) = stream f w t ++ (if v = w then f e else []) := by
  by_cases h : v = w <;> simp [stream, List.filter_append, List.filter_cons, h]

theorem fullSends_snoc (t : List (Worker × Event)) (w : Worker) (e : Event) :
    fullSends (t ++ [(w, e)]) = (fullSends t && e.fullSend) := by
  simp [fullSends, List.all_append]

theorem bufTake_zero (buf : Buf) : bufTake buf 0 = [] := rfl

theorem bufTake_recv (buf : Buf) (ret : Int) (pd : List Nat) :
    bufTake (writeBuf buf (recvData ret pd)) (recvRet ret pd).toNat = recvData ret pd := by
  by_cases h : ret ≤ 0
  · simp [recvRet, recvData, h, Int.toNat_of_nonpos h, bufTake_zero]
  · have := bufTake_writeBuf buf (recvData ret pd)
    simpa [recvRet, h] using this

theorem PC.holding_eqs :
    PC.holding .top = false
    ∧ PC.holding .chk = false
    ∧ PC.holding .sel = true
    ∧ PC.holding .lock = true
    ∧ PC.holding .xfer = true
    ∧ (∀ r, PC.holding (.store r) = false)
    ∧ PC.holding .clr = true
    ∧ PC.holding (.err true) = true
    ∧ PC.holding (.err false) = false
    ∧ PC.holding (.unlock true) = true
    ∧ PC.holding (.unlock false) = false
    ∧ PC.holding .done = false := by
  simp [PC.holding]

theorem PC.sentPending_eqs :
    PC.sentPending .top = false
    ∧ PC.sentPending .chk = false
    ∧ PC.sentPending .sel = false
    ∧ PC.sentPending .lock = false
    ∧ PC.sentPending .xfer = false
    ∧ (∀ r, PC.sentPending (.store r) = false)
    ∧ PC.sentPending .clr = true
    ∧ PC.sentPending (.err true) = true
    ∧ PC.sentPending (.err false) = false
    ∧ PC.sentPending (.unlock true) = true
    ∧ PC.sentPending (.unlock false) = false
    ∧ PC.sentPending .done = false := by
  simp [PC.sentPending]

theorem PC.reading_eqs :
    PC.reading .top = false
    ∧ PC.reading .chk = false
    ∧ PC.reading .sel = true
    ∧ PC.reading .lock = true
    ∧ PC.reading .xfer = true
    ∧ (∀ r, PC.reading (.store r) = true)
    ∧ PC.reading .clr = false
    ∧ PC.reading (.err true) = false
    ∧ PC.reading (.err false) = false
    ∧ PC.reading (.unlock true) = false
    ∧ PC.reading (.unlock false) = false
    ∧ PC.reading .done = false := by
  simp [PC.reading]

theorem PC.failed_eqs :
    PC.failed .top = false
    ∧ PC.failed .chk = false
    ∧ PC.failed .sel = false
    ∧ PC.failed .lock = false
    ∧ PC.failed .xfer = false
    ∧ (∀ r, PC.failed (.store r) = false)
    ∧ PC.failed .clr = false
    ∧ PC.failed (.err true) = true
    ∧ PC.failed (.err false) = false
    ∧ PC.failed (.unlock true) = true
    ∧ PC.failed (.unlock false) = false
    ∧ PC.failed .done = true := by
  simp [PC.failed]

theorem PC.writerPoint_eqs :
    PC.writerPoint .top = true
    ∧ PC.writerPoint .chk = true
    ∧ PC.writerPoint .sel = true
    ∧ PC.writerPoint .lock = true
    ∧ PC.writerPoint .xfer = true
    ∧ (∀ r, PC.writerPoint (.store r) = false)
    ∧ PC.writerPoint .clr = true
    ∧ PC.writerPoint (.err true) = true
    ∧ PC.writerPoint (.err false) = true
    ∧ PC.writerPoint (.unlock true) = true
    ∧ PC.writerPoint (.unlock false) = true
    ∧ PC.writerPoint .done = true := by
  simp [PC.writerPoint]

theorem PC.readerPoint_eqs :
    PC.readerPoint .top = true
    ∧ PC.readerPoint .chk = true
    ∧ PC.readerPoint .sel = true
    ∧ PC.readerPoint .lock = true
    ∧ PC.readerPoint .xfer = true
    ∧ (∀ r, PC.readerPoint (.store r) = true)
    ∧ PC.readerPoint .clr = false
    ∧ PC.readerPoint (.err true) = true
    ∧ PC.readerPoint (.err false) = true
    ∧ PC.readerPoint (.unlock true) = true
    ∧ PC.readerPoint (.unlock false) = true
    ∧ PC.readerPoint .done = true := by
  simp [PC.readerPoint]

theorem PC.stored_eqs :
    PC.stored .top = 0 ∧ PC.stored .chk = 0 ∧ PC.stored .sel = 0 ∧ PC.stored .lock = 0
    ∧ PC.stored .xfer = 0 ∧ (∀ r, PC.stored (.store r) = r) ∧ PC.stored .clr = 0
    ∧ (∀ b, PC.stored (.err b) = 0) ∧ (∀ b, PC.stored (.unlock b) = 0) ∧ PC.stored .done = 0 := by
  simp [PC.stored]

theorem stored_of_not_reading (pc : PC) (h : pc.reading = false) : pc.stored = 0 := by
  cases pc <;> simp_all [PC.reading, PC.stored]

theorem not_sentPending_of_not_holding (pc : PC) (h : pc.holding = false) :
    pc.sentPending = false := by
  cases pc with
  | err b => cases b <;> simp_all [PC.sentPending, PC.holding]
  | unlock b => cases b <;> simp_all [PC.sentPending, PC.holding]
  | _ => simp_all [PC.sentPending, PC.holding]

theorem ite_pos_of_nonpos {α : Type} (a : Int) (h : a ≤ 0) (x y : α) :
    (if 0 < a then x else y) = y := by
  rw [if_neg (by omega)]

set_option maxHeartbeats 4000000 in
theorem ChanInv_step_client_writeUp (browser server : SOCKET) (init : List Nat) (s : Relay)
    (ret : Int) (pending : List Nat) (h : ChanInv .readClient .writeUp init s) :
    ChanInv .readClient .writeUp init (step browser server s ⟨.writeUp, ret, pending⟩) := by
  unfold ChanInv at h ⊢
  obtain ⟨h1, h2, h3, h4, h5, h6⟩ := h
  have hst : 0 < s.len .readClient → (s.pc .readClient).stored = 0 := by
    intro hpos
    apply stored_of_not_reading
    cases hr : (s.pc .readClient).reading
    · rfl
    · rw [h3 hr] at hpos; exact absurd hpos (by decide)
  have hsp := not_sentPending_of_not_holding (s.pc .writeUp)
  unfold step
  simp only []
  split <;> (try split_ifs) <;>
      simp_all [Relay.goto, Relay.log, Relay.setLen, Relay.fill, Relay.setLock,
        Worker.isReader, Worker.sock, Worker.onClientSlot, Worker.ready, Worker.pollSetsError,
        Relay.len, Relay.buf, Relay.locked, Relay.pend,
        PC.holding_eqs, PC.sentPending_eqs, PC.failed_eqs, PC.writerPoint_eqs,
        PC.readerPoint_eqs, PC.reading_eqs,
        PC.stored_eqs, received, issued, delivered, fullSends_snoc, stream_snoc, bufTake_recv,
        Event.recvBytes, Event.sendBytes, Event.sentBytes, Event.fullSend, bufTake_zero,
        List.take_prefix, Int.toNat_of_nonpos, ite_pos_of_nonpos]
  intros
  omega



set_option maxHeartbeats 4000000 in
theorem ChanInv_step_client_readClient (browser server : SOCKET) (init : List Nat) (s : Relay)
    (ret : Int) (pending : List Nat) (h : ChanInv .readClient .writeUp init s) :
    ChanInv .readClient .writeUp init (step browser server s ⟨.readClient, ret, pending⟩) := by
  unfold ChanInv at h ⊢
  obtain ⟨h1, h2, h3, h4, h5, h6⟩ := h
  have hst : 0 < s.len .readClient → (s.pc .readClient).stored = 0 := by
    intro hpos
    apply stored_of_not_reading
    cases hr : (s.pc .readClient).reading
    · rfl
    · rw [h3 hr] at hpos; exact absurd hpos (by decide)
  have hsp := not_sentPending_of_not_holding (s.pc .writeUp)
  unfold step
  simp only []
  split <;> (try split_ifs) <;>
      simp_all [Relay.goto, Relay.log, Relay.setLen, Relay.fill, Relay.setLock,
        Worker.isReader, Worker.sock, Worker.onClientSlot, Worker.ready, Worker.pollSetsError,
        Relay.len, Relay.buf, Relay.locked, Relay.pend,
        PC.holding_eqs, PC.sentPending_eqs, PC.failed_eqs, PC.writerPoint_eqs,
        PC.readerPoint_eqs, PC.reading_eqs,
        PC.stored_eqs, received, issued, delivered, fullSends_snoc, stream_snoc, bufTake_recv,
        Event.recvBytes, Event.sendBytes, Event.sentBytes, Event.fullSend, bufTake_zero,
        List.take_prefix, Int.toNat_of_nonpos, ite_pos_of_nonpos]
  rw [← List.append_assoc, h5]


set_option maxHeartbeats 4000000 in
theorem ChanInv_step_server_readUp (browser server : SOCKET) (init : List Nat) (s : Relay)
    (ret : Int) (pending : List Nat) (h : ChanInv .readUp .writeClient init s) :
    ChanInv .readUp .writeClient init (step browser server s ⟨.readUp, ret, pending⟩) := by
  unfold ChanInv at h ⊢
  obtain ⟨h1, h2, h3, h4, h5, h6⟩ := h
  have hst : 0 < s.len .readUp → (s.pc .readUp).stored = 0 := by
    intro hpos
    apply stored_of_not_reading
    cases hr : (s.pc .readUp).reading
    · rfl
    · rw [h3 hr] at hpos; exact absurd hpos (by decide)
  have hsp := not_sentPending_of_not_holding (s.pc .writeClient)
  unfold step
  simp only []
  split <;> (try split_ifs) <;>
      simp_all [Relay.goto, Relay.log, Relay.setLen, Relay.fill, Relay.setLock,
        Worker.isReader, Worker.sock, Worker.onClientSlot, Worker.ready, Worker.pollSetsError,
        Relay.len, Relay.buf, Relay.locked, Relay.pend,
        PC.holding_eqs, PC.sentPending_eqs, PC.failed_eqs, PC.writerPoint_eqs,
        PC.readerPoint_eqs, PC.reading_eqs,
        PC.stored_eqs, received, issued, delivered, fullSends_snoc, stream_snoc, bufTake_recv,
        Event.recvBytes, Event.sendBytes, Event.sentBytes, Event.fullSend, bufTake_zero,
        List.take_prefix, Int.toNat_of_nonpos, ite_pos_of_nonpos]
  rw [← List.append_assoc, h5]

set_option maxHeartbeats 4000000 in
theorem ChanInv_step_server_writeClient (browser server : SOCKET) (init : List Nat) (s : Relay)
    (ret : Int) (pending : List Nat) (h : ChanInv .readUp .writeClient init s) :
    ChanInv .readUp .writeClient init (step browser server s ⟨.writeClient, ret, pending⟩) := by
  unfold ChanInv at h ⊢
  obtain ⟨h1, h2, h3, h4, h5, h6⟩ := h
  have hst : 0 < s.len .readUp → (s.pc .readUp).stored = 0 := by
    intro hpos
    apply stored_of_not_reading
    cases hr : (s.pc .readUp).reading
    · rfl
    · rw [h3 hr] at hpos; exact absurd hpos (by decide)
  have hsp := not_sentPending_of_not_holding (s.pc .writeClient)
  unfold step
  simp only []
  split <;> (try split_ifs) <;>
      simp_all [Relay.goto, Relay.log, Relay.setLen, Relay.fill, Relay.setLock,
        Worker.isReader, Worker.sock, Worker.onClientSlot, Worker.ready, Worker.pollSetsError,
        Relay.len, Relay.buf, Relay.locked, Relay.pend,
        PC.holding_eqs, PC.sentPending_eqs, PC.failed_eqs, PC.writerPoint_eqs,
        PC.readerPoint_eqs, PC.reading_eqs,
        PC.stored_eqs, received, issued, delivered, fullSends_snoc, stream_snoc, bufTake_recv,
        Event.recvBytes, Event.sendBytes, Event.sentBytes, Event.fullSend, bufTake_zero,
        List.take_prefix, Int.toNat_of_nonpos, ite_pos_of_nonpos]
  intros
  omega

theorem step_slot_other (browser server : SOCKET) (s : Relay) (p : Pick) (w : Worker)
    (h : p.who.onClientSlot ≠ w.onClientSlot) :
    (step browser server s p).len w = s.len w ∧ (step browser server s p).buf w = s.buf w := by
  obtain ⟨v, ret, pending⟩ := p
  unfold step
  simp only []
  cases v <;> cases w <;> simp [Worker.onClientSlot] at h <;>
    split <;> (try split_ifs) <;>
    simp [Relay.goto, Relay.log, Relay.setLen, Relay.fill, Relay.setLock, Relay.len, Relay.buf,
      Worker.onClientSlot]

theorem step_trace_grows (browser server : SOCKET) (s : Relay) (p : Pick) :
    s.trace <+: (step browser server s p).trace := by
  obtain ⟨v, ret, pending⟩ := p
  unfold step
  simp only []
  split <;> (try split_ifs) <;>
    simp [Relay.goto, Relay.log, Relay.setLen, Relay.fill, Relay.setLock, apply_ite Relay.trace]

theorem fullSends_mono (t u : List (Worker × Event)) (h : t <+: u)
    (hu : fullSends u = true) : fullSends t = true := by
  obtain ⟨r, rfl⟩ := h
  simp only [fullSends, List.all_append, Bool.and_eq_true] at hu
  exact hu.1

theorem stream_eq_of_callsBy (f : Event → List Nat) (w : Worker) (t u : List (Worker × Event))
    (h : callsBy w t = callsBy w u) : stream f w t = stream f w u := by
  unfold stream
  unfold callsBy at h
  rw [h]

theorem ChanInv_frame (rd wr : Worker) (init : List Nat) (s t : Relay)
    (hrd : t.pc rd = s.pc rd) (hwr : t.pc wr = s.pc wr) (hlen : t.len rd = s.len rd)
    (hbuf : t.buf rd = s.buf rd) (hcr : callsBy rd t.trace = callsBy rd s.trace)
    (hcw : callsBy wr t.trace = callsBy wr s.trace)
    (hfull : fullSends t.trace = true → fullSends s.trace = true)
    (h : ChanInv rd wr init s) : ChanInv rd wr init t := by
  unfold ChanInv at h ⊢
  obtain ⟨h1, h2, h3, h4, h5, h6⟩ := h
  have e1 : received rd t.trace = received rd s.trace := stream_eq_of_callsBy _ _ _ _ hcr
  have e2 : issued wr t.trace = issued wr s.trace := stream_eq_of_callsBy _ _ _ _ hcw
  have e3 : delivered wr t.trace = delivered wr s.trace := stream_eq_of_callsBy _ _ _ _ hcw
  have e4 : t.pend rd = s.pend rd := by simp only [Relay.pend, hlen, hbuf, hrd]
  rw [hrd, hwr, hlen, e1, e2, e3, e4]
  exact ⟨h1, h2, h3, h4, h5, fun hf => h6 (hfull hf)⟩

theorem ChanInv_step_other (browser server : SOCKET) (rd wr : Worker) (init : List Nat)
    (s : Relay) (p : Pick) (h1 : p.who ≠ rd) (h2 : p.who ≠ wr)
    (h3 : p.who.onClientSlot ≠ rd.onClientSlot) (h : ChanInv rd wr init s) :
    ChanInv rd wr init (step browser server s p) :=
  ChanInv_frame rd wr init s _ (step_pc_other browser server s p rd h1)
    (step_pc_other browser server s p wr h2) (step_slot_other browser server s p rd h3).1
    (step_slot_other browser server s p rd h3).2 (step_callsBy_other browser server s p rd h1)
    (step_callsBy_other browser server s p wr h2)
    (fullSends_mono _ _ (step_trace_grows browser server s p)) h

theorem ChanInv_step_client (browser server : SOCKET) (init : List Nat) (s : Relay) (p : Pick)
    (h : ChanInv .readClient .writeUp init s) :
    ChanInv .readClient .writeUp init (step browser server s p) := by
  obtain ⟨w, ret, pending⟩ := p
  cases w
  · exact ChanInv_step_client_writeUp browser server init s ret pending h
  · exact ChanInv_step_other browser server _ _ init s _ (by simp) (by simp) (by simp [Worker.onClientSlot]) h
  · exact ChanInv_step_other browser server _ _ init s _ (by simp) (by simp) (by simp [Worker.onClientSlot]) h
  · exact ChanInv_step_client_readClient browser server init s ret pending h

theorem ChanInv_step_server (browser server : SOCKET) (init : List Nat) (s : Relay) (p : Pick)
    (h : ChanInv .readUp .writeClient init s) :
    ChanInv .readUp .writeClient init (step browser server s p) := by
  obtain ⟨w, ret, pending⟩ := p
  cases w
  · exact ChanInv_step_other browser server _ _ init s _ (by simp) (by simp) (by simp [Worker.onClientSlot]) h
  · exact ChanInv_step_server_readUp browser server init s ret pending h
  · exact ChanInv_step_server_writeClient browser server init s ret pending h
  · exact ChanInv_step_other browser server _ _ init s _ (by simp) (by simp) (by simp [Worker.onClientSlot]) h

theorem ChanInv_exec_client (browser server : SOCKET) (init : List Nat) (sched : List Pick)
    (s : Relay) (h : ChanInv .readClient .writeUp init s) :
    ChanInv .readClient .writeUp init (exec browser server s sched) := by
  induction sched generalizing s with
  | nil => exact h
  | cons p ps ih => exact ih _ (ChanInv_step_client browser server init s p h)

theorem ChanInv_exec_server (browser server : SOCKET) (init : List Nat) (sched : List Pick)
    (s : Relay) (h : ChanInv .readUp .writeClient init s) :
    ChanInv .readUp .writeClient init (exec browser server s sched) := by
  induction sched generalizing s with
  | nil => exact h
  | cons p ps ih => exact ih _ (ChanInv_step_server browser server init s p h)

theorem ChanInv_init_client (clientLen : Int) (clientBuf serverBuf : Buf) :
    ChanInv .readClient .writeUp (bufTake clientBuf clientLen.toNat)
      (relayInit clientLen clientBuf serverBuf) := by
  unfold ChanInv
  by_cases h : 0 < clientLen
  · simp [relayInit, PC.writerPoint, PC.readerPoint, PC.reading, PC.holding, PC.sentPending,
      Relay.pend, Relay.len, Relay.buf, Worker.onClientSlot, received, issued, delivered, stream,
      PC.stored, h]
  · have h0 : clientLen.toNat = 0 := Int.toNat_of_nonpos (by omega)
    simp [relayInit, PC.writerPoint, PC.readerPoint, PC.reading, PC.holding, PC.sentPending,
      Relay.pend, Relay.len, Relay.buf, Worker.onClientSlot, received, issued, delivered, stream,
      PC.stored, h, h0, bufTake_zero]

theorem ChanInv_init_server (clientLen : Int) (clientBuf serverBuf : Buf) :
    ChanInv .readUp .writeClient [] (relayInit clientLen clientBuf serverBuf) := by
  unfold ChanInv
  simp [relayInit, PC.writerPoint, PC.readerPoint, PC.reading, PC.holding, PC.sentPending,
    Relay.pend, Relay.len, Relay.buf, Worker.onClientSlot, received, issued, delivered, stream,
    PC.stored, bufTake_zero]

theorem ChanInv_reader_idle (rd wr : Worker) (init : List Nat) (s : Relay)
    (h : ChanInv rd wr init s) (hx : s.pc rd = .xfer) : s.len rd = 0 :=
  h.2.2.1 (by rw [hx]; rfl)

theorem ChanInv_handed_off (rd wr : Worker) (init : List Nat) (s : Relay)
    (h : ChanInv rd wr init s) (h0 : s.len rd = 0) (hs : (s.pc rd).stored = 0) :
    init ++ received rd s.trace = issued wr s.trace := by
  obtain ⟨_, _, _, h4, h5, _⟩ := h
  have hh : (s.pc wr).holding = false := by
    cases hc : (s.pc wr).holding
    · rfl
    · have := h4 hc; omega
  have hsp := not_sentPending_of_not_holding _ hh
  rw [hsp] at h5
  simp only [Bool.false_eq_true, if_false] at h5
  rcases h5 with h5 | ⟨_, h5, _⟩
  · simpa [Relay.pend, h0, hs, bufTake_zero] using h5
  · omega

theorem ChanInv_delivered (rd wr : Worker) (init : List Nat) (s : Relay)
    (h : ChanInv rd wr init s) (hf : fullSends s.trace = true) :
    delivered wr s.trace <+: init ++ received rd s.trace := by
  obtain ⟨_, _, _, _, h5, h6⟩ := h
  have h1 : delivered wr s.trace <+: issued wr s.trace := by
    rcases h6 hf with h | ⟨_, h⟩
    · rw [h]
    · exact h
  have h2 : issued wr s.trace <+: init ++ received rd s.trace := by
    split_ifs at h5 with hc
    · rw [h5]
    · rcases h5 with h | ⟨_, _, h⟩
      · rw [h]; exact List.prefix_append _ _
      · rw [h]
  exact h1.trans h2

/-- C5. In every interleaving, for both directions: a reader is about to call
`recv` only while the length field is 0; while the length field is 0 and no
received chunk awaits its length assignment, all bytes received so far have
been handed to `send`; and if every `send` transmitted its full length (or
failed), the bytes transmitted to the destination are a prefix of the bytes
received from the source (the sniffed chunk included for the client
direction). -/
theorem relay_forwards_in_order (browser server : SOCKET) (clientLen : Int)
    (clientBuf serverBuf : Buf) (sched : List Pick) :
    ((exec browser server (relayInit clientLen clientBuf serverBuf) sched).pc .readClient = .xfer →
        (exec browser server (relayInit clientLen clientBuf serverBuf) sched).clientLen = 0)
    ∧ ((exec browser server (relayInit clientLen clientBuf serverBuf) sched).pc .readUp = .xfer →
        (exec browser server (relayInit clientLen clientBuf serverBuf) sched).serverLen = 0)
    ∧ ((exec browser server (relayInit clientLen clientBuf serverBuf) sched).clientLen = 0 →
        ((exec browser server (relayInit clientLen clientBuf serverBuf) sched).pc
          .readClient).stored = 0 →
        bufTake clientBuf clientLen.toNat
            ++ received .readClient
              (exec browser server (relayInit clientLen clientBuf serverBuf) sched).trace
          = issued .writeUp
              (exec browser server (relayInit clientLen clientBuf serverBuf) sched).trace)
    ∧ ((exec browser server (relayInit clientLen clientBuf serverBuf) sched).serverLen = 0 →
        ((exec browser server (relayInit clientLen clientBuf serverBuf) sched).pc
          .readUp).stored = 0 →
        received .readUp
              (exec browser server (relayInit clientLen clientBuf serverBuf) sched).trace
          = issued .writeClient
              (exec browser server (relayInit clientLen clientBuf serverBuf) sched).trace)
    ∧ (fullSends (exec browser server (relayInit clientLen clientBuf serverBuf) sched).trace = true →
        delivered .writeUp
            (exec browser server (relayInit clientLen clientBuf serverBuf) sched).trace
          <+: bufTake clientBuf clientLen.toNat
            ++ received .readClient
              (exec browser server (relayInit clientLen clientBuf serverBuf) sched).trace
        ∧ delivered .writeClient
            (exec browser server (relayInit clientLen clientBuf serverBuf) sched).trace
          <+: received .readUp
              (exec browser server (relayInit clientLen clientBuf serverBuf) sched).trace) := by
  have hc := ChanInv_exec_client browser server _ sched _
    (ChanInv_init_client clientLen clientBuf serverBuf)
  have hs := ChanInv_exec_server browser server _ sched _
    (ChanInv_init_server clientLen clientBuf serverBuf)
  refine ⟨?_, ?_, ?_, ?_, ?_⟩
  · intro hx
    simpa [Relay.len, Worker.onClientSlot] using ChanInv_reader_idle _ _ _ _ hc hx
  · intro hx
    simpa [Relay.len, Worker.onClientSlot] using ChanInv_reader_idle _ _ _ _ hs hx
  · intro h0 hst
    exact ChanInv_handed_off _ _ _ _ hc (by simpa [Relay.len, Worker.onClientSlot] using h0) hst
  · intro h0 hst
    simpa using
      ChanInv_handed_off _ _ _ _ hs (by simpa [Relay.len, Worker.onClientSlot] using h0) hst
  · intro hf
    refine ⟨ChanInv_delivered _ _ _ _ hc hf, ?_⟩
    simpa using ChanInv_delivered _ _ _ _ hs hf

/-! ## The termination flag -/

theorem flagPending_step (browser server : SOCKET) (w : Worker) (s : Relay) (p : Pick)
    (h : flagPending w s) : flagPending w (step browser server s p) := by
  by_cases hw : p.who = w
  · obtain ⟨v, ret, pending⟩ := p
    simp only at hw
    subst hw
    unfold flagPending at h ⊢
    unfold step
    rcases h with h | ⟨h, he⟩
    · simp [h, Relay.goto]
    · simp [h, he]
  · unfold flagPending at h ⊢
    rw [step_pc_other browser server s p w hw]
    rcases h with h | ⟨h, he⟩
    · exact Or.inl h
    · exact Or.inr ⟨h, step_error_mono browser server s p he⟩

theorem flagPending_exec (browser server : SOCKET) (w : Worker) (sched : List Pick) (s : Relay)
    (h : flagPending w s) : flagPending w (exec browser server s sched) := by
  induction sched generalizing s with
  | nil => exact h
  | cons p ps ih => exact ih _ (flagPending_step browser server w s p h)

/-- C6 as amended. When the `select` of a thread returns anything other than 1:
a server-side thread (write-to-upstream, read-from-upstream) is from then on
either about to execute `error = true` or has exited with `error` set, and
its next step from the former sets the flag and exits; a client-side thread
(write-to-client, read-from-client) exits at once and leaves `error` as it was. -/
theorem failed_poll_sets_flag_on_server_side (browser server : SOCKET) (s : Relay) (p : Pick)
    (sched : List Pick) (hsel : s.pc p.who = .sel) (hret : p.ret ≠ 1) :
    (p.who.pollSetsError = true →
      ((exec browser server (step browser server s p) sched).pc p.who = .err false
        ∨ ((exec browser server (step browser server s p) sched).pc p.who = .done
            ∧ (exec browser server (step browser server s p) sched).error = true))
      ∧ ∀ q : Pick, q.who = p.who →
          (exec browser server (step browser server s p) sched).pc p.who = .err false →
          (step browser server (exec browser server (step browser server s p) sched) q).pc p.who
              = .done
            ∧ (step browser server (exec browser server (step browser server s p) sched) q).error
              = true)
    ∧ (p.who.pollSetsError = false →
        (step browser server s p).pc p.who = .done
        ∧ (step browser server s p).error = s.error) := by
  constructor
  · intro hp
    have h0 : flagPending p.who (step browser server s p) := by
      left
      unfold step
      simp [hsel, hret, hp, Relay.goto, Relay.log]
    refine ⟨flagPending_exec browser server p.who sched _ h0, ?_⟩
    intro q hq hpc
    obtain ⟨v, ret, pending⟩ := q
    simp only at hq
    subst hq
    generalize exec browser server (step browser server s p) sched = t at hpc
    unfold step
    simp [hpc, Relay.goto]
  · intro hp
    unfold step
    simp [hsel, hret, hp, Relay.goto, Relay.log]

theorem leaving_step (browser server : SOCKET) (w : Worker) (log0 : List (Worker × Event))
    (s : Relay) (p : Pick) (h : leaving w log0 s) : leaving w log0 (step browser server s p) := by
  obtain ⟨he, hpc, hlog⟩ := h
  by_cases hw : p.who = w
  · obtain ⟨v, ret, pending⟩ := p
    simp only at hw
    subst hw
    unfold leaving
    unfold step
    rcases hpc with h | h
    · simp [h, he, Relay.goto, hlog]
    · simp [h, he, hlog]
  · exact ⟨step_error_mono browser server s p he,
      by rw [step_pc_other browser server s p w hw]; exact hpc,
      by rw [step_callsBy_other browser server s p w hw]; exact hlog⟩

theorem leaving_exec (browser server : SOCKET) (w : Worker) (log0 : List (Worker × Event))
    (sched : List Pick) (s : Relay) (h : leaving w log0 s) :
    leaving w log0 (exec browser server s sched) := by
  induction sched generalizing s with
  | nil => exact h
  | cons p ps ih => exact ih _ (leaving_step browser server w log0 s p h)

/-- C7 as amended. A thread that evaluates its loop-head test while `error` is
set and finds its slot not in the state for its role (writer: length not
positive, reader: length not 0) makes no further call: in every continuation
it is at the test of `error` or has exited, its calls are those it had made
before, and its next step exits without a call. -/
theorem idle_worker_exits_once_flag_set (browser server : SOCKET) (s : Relay) (p : Pick)
    (sched : List Pick) (herr : s.error = true) (htop : s.pc p.who = .top)
    (hidle : p.who.ready (s.len p.who) = false) :
    ((exec browser server (step browser server s p) sched).pc p.who = .chk
      ∨ (exec browser server (step browser server s p) sched).pc p.who = .done)
    ∧ callsBy p.who (exec browser server (step browser server s p) sched).trace
        = callsBy p.who s.trace
    ∧ ∀ q : Pick, q.who = p.who →
        (step browser server (exec browser server (step browser server s p) sched) q).pc p.who
            = .done
          ∧ (step browser server (exec browser server (step browser server s p) sched) q).trace
            = (exec browser server (step browser server s p) sched).trace := by
  have h0 : leaving p.who (callsBy p.who s.trace) (step browser server s p) := by
    unfold leaving step
    simp [htop, hidle, herr, Relay.goto]
  have h1 := leaving_exec browser server p.who _ sched _ h0
  obtain ⟨he, hpc, hlog⟩ := h1
  refine ⟨hpc, hlog, ?_⟩
  intro q hq
  obtain ⟨v, ret, pending⟩ := q
  simp only at hq
  subst hq
  generalize exec browser server (step browser server s p) sched = t at hpc he
  unfold step
  rcases hpc with h | h
  · simp [h, he, Relay.goto]
  · simp [h]

/-! ## Evaluations at concrete inputs, and the remaining classification claims -/

theorem classify_eq_none_iff (g : Globals) (clientLen : Int) (clientBuf : Buf) :
    classify g clientLen clientBuf = none ↔
      ¬ (g.httpsPort ≠ 0 ∧ clientBuf 0 = 0x16)
      ∧ ¬ (g.sshPort ≠ 0 ∧ clientLen ≥ 3 ∧ clientBuf 0 = 'S'.toNat ∧ clientBuf 1 = 'S'.toNat
          ∧ clientBuf 2 = 'H'.toNat)
      ∧ g.httpPort = 0 := by
  unfold classify
  split_ifs <;> simp_all

/-- C1, at a concrete input: the TLS record `16 03 01` with all three backends
configured is routed to port 8443. -/
theorem classify_matches_decision_list_witness :
    ([0x16, 3, 1] : List Nat) ≠ []
    ∧ brokerPort allBackends ([0x16, 3, 1] : List Nat).length (writeBuf zeroBuf [0x16, 3, 1])
        = specPort allBackends [0x16, 3, 1]
    ∧ specPort allBackends [0x16, 3, 1] = some 8443 :=
  ⟨by decide, (classify_matches_decision_list allBackends zeroBuf [0x16, 3, 1] (by decide)).1,
    by decide⟩

/-- C2, evaluated at the failing input: with only an HTTP backend configured
and an initial `recv` that returns 0, `broker` still calls `connect` on port
8080 and starts the four relay threads before it tears down. -/
theorem broker_connects_after_failed_first_read :
    broker httpOnly 5 closedClient
      = ⟨.returned,
          [.socket 7, .recv 5 0 [], .connect 7 2130706433 8080 true,
            .select 5 false 1, .recv 5 0 [], .select 7 false 0,
            .closesocket 5, .closesocket 7],
          [.writeUp, .readUp, .writeClient, .readClient]⟩ := by
  decide

/-- C3. When the classification selects no port, `broker` makes exactly four
calls: `socket`, the initial `recv`, `closesocket(browser)` and
`closesocket(server)`.  It calls no `connect` and starts no relay thread. -/
theorem no_backend_selected_closes_without_connect (g : Globals) (browser : SOCKET) (env : Env)
    (addr : Nat) (hhost : env.host = some addr) (hsock : env.sock ≠ INVALID_SOCKET)
    (hnone : classify g (recvRet env.firstRet env.firstPending)
      (writeBuf env.clientStack (recvData env.firstRet env.firstPending)) = none) :
    broker g browser env
      = ⟨.returned,
          [.socket env.sock,
            .recv browser (recvRet env.firstRet env.firstPending)
              (recvData env.firstRet env.firstPending),
            .closesocket browser, .closesocket env.sock],
          []⟩ := by
  simp [broker, hostname_alpha, hhost, brokerFrom, hsock, hnone, teardown]

/-- C3, at a concrete input: `GET` with no HTTP backend configured. -/
theorem no_backend_selected_closes_without_connect_witness :
    getRequest.host = some 2130706433 ∧ getRequest.sock ≠ INVALID_SOCKET
    ∧ broker noHttp 5 getRequest
      = ⟨.returned, [.socket 7, .recv 5 3 [71, 69, 84], .closesocket 5, .closesocket 7], []⟩ :=
  ⟨rfl, by decide,
    no_backend_selected_closes_without_connect noHttp 5 getRequest 2130706433 rfl (by decide)
      (by decide)⟩

/-- C4, at a concrete run: the sniffed chunk `GET` is sent first, then the
client reader receives the next byte. -/
theorem sniffed_chunk_forwarded_first_witness :
    (0 : Int) < 3 ∧ (7 : SOCKET) ≠ 5
    ∧ (exec 5 7 getRelay forwardSched).calls
        = [.select 7 true 1, .send 7 [71, 69, 84] 3, .select 5 false 1, .recv 5 1 [33]]
    ∧ ∀ pre d r post,
        (exec 5 7 (relayInit 3 (writeBuf zeroBuf [71, 69, 84]) zeroBuf) forwardSched).calls
          = pre ++ Event.send 7 d r :: post →
        (∀ d0 r0, Event.send 7 d0 r0 ∉ pre) →
        d = bufTake (writeBuf zeroBuf [71, 69, 84]) (3 : Int).toNat :=
  ⟨by decide, by decide, by decide,
    (sniffed_chunk_forwarded_first 5 7 3 (writeBuf zeroBuf [71, 69, 84]) zeroBuf forwardSched
      (by decide) (by decide)).2⟩

/-- C5, at a concrete run in which every `send` is full. -/
theorem relay_forwards_in_order_witness :
    fullSends (exec 5 7 (relayInit 3 (writeBuf zeroBuf [71, 69, 84]) zeroBuf) forwardSched).trace
        = true
    ∧ delivered .writeUp
          (exec 5 7 (relayInit 3 (writeBuf zeroBuf [71, 69, 84]) zeroBuf) forwardSched).trace
        = [71, 69, 84]
    ∧ delivered .writeUp
          (exec 5 7 (relayInit 3 (writeBuf zeroBuf [71, 69, 84]) zeroBuf) forwardSched).trace
        <+: bufTake (writeBuf zeroBuf [71, 69, 84]) (3 : Int).toNat
          ++ received .readClient
            (exec 5 7 (relayInit 3 (writeBuf zeroBuf [71, 69, 84]) zeroBuf) forwardSched).trace :=
  ⟨by decide, by decide,
    ((relay_forwards_in_order 5 7 3 (writeBuf zeroBuf [71, 69, 84]) zeroBuf forwardSched).2.2.2.2
      (by decide)).1⟩

/-- C6 fails for the client-side threads: after the sniffed chunk is forwarded
the client reader's `select` returns 0 (timeout); the reader has exited its
loop and the flag `error` is still false. -/
theorem client_poll_timeout_leaves_flag_unset :
    (exec 5 7 getRelay clientTimeoutSched).trace
        = [(.writeUp, .select 7 true 1), (.writeUp, .send 7 [71, 69, 84] 3),
            (.readClient, .select 5 false 0)]
    ∧ (exec 5 7 getRelay clientTimeoutSched).pc .readClient = .done
    ∧ (exec 5 7 getRelay clientTimeoutSched).error = false := by
  decide

/-- C6 as amended, at a concrete state: the server reader's poll times out and
it exits with the flag set. -/
theorem failed_poll_sets_flag_on_server_side_witness :
    (exec 5 7 getRelay [⟨.readUp, 0, []⟩]).pc .readUp = .sel ∧ (0 : Int) ≠ 1
    ∧ (exec 5 7 (step 5 7 (exec 5 7 getRelay [⟨.readUp, 0, []⟩]) ⟨.readUp, 0, []⟩)
          [⟨.readUp, 0, []⟩]).pc .readUp = .done
    ∧ ((exec 5 7 (step 5 7 (exec 5 7 getRelay [⟨.readUp, 0, []⟩]) ⟨.readUp, 0, []⟩)
          [⟨.readUp, 0, []⟩]).pc .readUp = .err false
        ∨ ((exec 5 7 (step 5 7 (exec 5 7 getRelay [⟨.readUp, 0, []⟩]) ⟨.readUp, 0, []⟩)
            [⟨.readUp, 0, []⟩]).pc .readUp = .done
          ∧ (exec 5 7 (step 5 7 (exec 5 7 getRelay [⟨.readUp, 0, []⟩]) ⟨.readUp, 0, []⟩)
            [⟨.readUp, 0, []⟩]).error = true)) :=
  ⟨by decide, by decide, by decide,
    ((failed_poll_sets_flag_on_server_side 5 7 (exec 5 7 getRelay [⟨.readUp, 0, []⟩])
      ⟨.readUp, 0, []⟩ [⟨.readUp, 0, []⟩] (by decide) (by decide)).1 rfl).1⟩

/-- C7 fails: after the server reader has set `error`, the server writer is at
the top of its loop with a full slot; it then polls and sends the chunk. -/
theorem full_writer_polls_and_sends_after_flag_set :
    (exec 5 7 getRelay serverTimeoutSched).error = true
    ∧ (exec 5 7 getRelay serverTimeoutSched).pc .writeUp = .top
    ∧ (exec 5 7 getRelay serverTimeoutSched).trace = [(.readUp, .select 7 false 0)]
    ∧ (exec 5 7 getRelay (serverTimeoutSched ++ writerAfterFlagSched)).trace
        = [(.readUp, .select 7 false 0), (.writeUp, .select 7 true 1),
            (.writeUp, .send 7 [71, 69, 84] 3)] := by
  decide

/-- C7 as amended, at a concrete state: with the flag set and `serverLen = 0`
the client writer exits without a call. -/
theorem idle_worker_exits_once_flag_set_witness :
    (exec 5 7 getRelay serverTimeoutSched).error = true
    ∧ (exec 5 7 getRelay serverTimeoutSched).pc .writeClient = .top
    ∧ Worker.writeClient.ready ((exec 5 7 getRelay serverTimeoutSched).len .writeClient) = false
    ∧ callsBy .writeClient
          (exec 5 7 (step 5 7 (exec 5 7 getRelay serverTimeoutSched) ⟨.writeClient, 1, []⟩)
            [⟨.writeUp, 0, []⟩, ⟨.writeClient, 1, []⟩]).trace
        = callsBy .writeClient (exec 5 7 getRelay serverTimeoutSched).trace
    ∧ (exec 5 7 (step 5 7 (exec 5 7 getRelay serverTimeoutSched) ⟨.writeClient, 1, []⟩)
          [⟨.writeUp, 0, []⟩, ⟨.writeClient, 1, []⟩]).pc .writeClient = .done :=
  ⟨by decide, by decide, by decide,
    (idle_worker_exits_once_flag_set 5 7 (exec 5 7 getRelay serverTimeoutSched)
      ⟨.writeClient, 1, []⟩ [⟨.writeUp, 0, []⟩, ⟨.writeClient, 1, []⟩]
      (by decide) (by decide) (by decide)).2.1,
    by decide⟩

/-- C8, at a concrete run that goes through the relay. -/
theorem broker_closes_each_socket_once_witness :
    (broker httpOnly 5 closedClient).status = .returned ∧ closedClient.sock ≠ 5
    ∧ closes 5 (broker httpOnly 5 closedClient).trace = 1
    ∧ closes closedClient.sock (broker httpOnly 5 closedClient).trace
        = (if closedClient.sock ≠ INVALID_SOCKET then 1 else 0) :=
  ⟨by decide, by decide,
    (broker_closes_each_socket_once httpOnly 5 closedClient (by decide) (by decide)).1,
    (broker_closes_each_socket_once httpOnly 5 closedClient (by decide) (by decide)).2.1⟩

/-- C9 fails: with no HTTPS backend configured, a chunk whose first byte is
`0x16` is classified as HTTP. -/
theorem tls_byte_without_https_backend_goes_to_http :
    ([0x16] : List Nat) ≠ [] ∧ ([0x16] : List Nat).head? = some 0x16
    ∧ classify httpOnly ([0x16] : List Nat).length (writeBuf zeroBuf [0x16]) = some .http := by
  decide

/-- C9 as amended. For every configuration and every non-empty first chunk,
the HTTPS branch is taken if and only if an HTTPS port is configured and the
first byte is `0x16`. -/
theorem https_selected_iff_configured_and_tls_byte (g : Globals) (stack : Buf) (b : List Nat)
    (hb : b ≠ []) :
    classify g b.length (writeBuf stack b) = some .https
      ↔ g.httpsPort ≠ 0 ∧ b.head? = some 0x16 := by
  cases b with
  | nil => exact absurd rfl hb
  | cons x r =>
    unfold classify
    split_ifs <;> simp_all [writeBuf]

/-- C9 as amended, at a concrete input. -/
theorem https_selected_iff_configured_and_tls_byte_witness :
    ([0x16, 3, 1] : List Nat) ≠ []
    ∧ (classify allBackends ([0x16, 3, 1] : List Nat).length (writeBuf zeroBuf [0x16, 3, 1])
        = some .https
      ↔ allBackends.httpsPort ≠ 0 ∧ ([0x16, 3, 1] : List Nat).head? = some 0x16)
    ∧ classify allBackends ([0x16, 3, 1] : List Nat).length (writeBuf zeroBuf [0x16, 3, 1])
        = some .https :=
  ⟨by decide,
    https_selected_iff_configured_and_tls_byte allBackends zeroBuf [0x16, 3, 1] (by decide),
    by decide⟩

/-! ## Command line -/

theorem parseArg_long_listen (next : Option String) :
    parseArg optstring.toList long_options next "--listen" = ⟨[⟨'?', none⟩], false, false⟩ := by
  rfl

theorem parseArg_non_option (short : List Char) (table : List LongOption) (next : Option String)
    (v : String) (hv : v.toList.head? ≠ some '-') :
    parseArg short table next v = ⟨[], false, false⟩ := by
  unfold parseArg
  split <;> simp_all

/-- C10, on the code: for every value `v` that does not start with `-`, the
command line `--listen v` ends in `help()`; the name `listen` is advertised by
the usage text but absent from the option table, where `'l'` is registered
under the long name `port`. -/
theorem long_listen_option_not_registered (prog v : String)
    (hv : v.toList.head? ≠ some '-') :
    handleCommandLine [prog, "--listen", v] = .help
    ∧ "listen" ∈ helpNames
    ∧ long_options.find? (fun o => o.name == "listen") = none
    ∧ (long_options.find? (fun o => o.val == 'l')).map LongOption.name = some "port" := by
  refine ⟨?_, by decide, by decide, by decide⟩
  simp only [handleCommandLine, List.tail_cons, getoptAll, parseArg_long_listen, List.head?_cons,
    parseArg_non_option _ _ _ v hv]
  decide

/-- C10, at the concrete command lines `--listen 8080` and `-l 8080`. -/
theorem long_listen_option_not_registered_witness :
    ("8080".toList.head? ≠ some '-')
    ∧ handleCommandLine ["http_broker.exe", "--listen", "8080"] = .help
    ∧ handleCommandLine ["http_broker.exe", "-l", "8080"] = .proceed ⟨8080, 0, 0, 0⟩ :=
  ⟨by decide, (long_listen_option_not_registered "http_broker.exe" "8080" (by decide)).1,
    by decide⟩

end HttpBroker
